import Mathlib

/-!
# Verification of the Refactoring Swarm pipeline orchestration core

Shallow embedding of the orchestration engine of the repository:
* `main.py` — `SwarmContext`, `RelayOrchestrator` (`determine_next_agent`,
  `should_stop_loop`, `handover_to`, `run_pipeline`);
* `src/graph/execution_graph.py` — graph-variant decision predicates
  (`should_fix`, `should_continue_healing`);
* `src/agents/corrector_agent.py` — control-flow skeleton of
  `CorrectorAgent.run` (file-system and LLM outcomes abstracted as oracles);
* `src/agents/validator_agent.py` — `ValidatorAgent._analyze_test_results`.

Python integers are modelled as `Int`, Python lists as `List`, exceptions as
`Except String`, `datetime` timestamps as `Option Unit` (presence only).
Agents are modelled as total functions returning `Except String SwarmContext`:
the `.error` case models `agent.run` raising; in-place mutations an agent may
have performed before raising are not modelled (the orchestrator's handling
of the exception only reads the context it handed over).
The unbounded `while` loop of `run_pipeline` is modelled with explicit fuel:
`runLoop ag fuel c` returns `none` exactly when the loop is still running
after `fuel` passes.
-/

/-- `AgentRole` enum of `main.py`. -/
inductive AgentRole where
  | listener
  | corrector
  | validator
  | orchestrator
deriving Repr, DecidableEq

/-- `SwarmState` enum of `main.py`. -/
inductive SwarmState where
  | idle
  | listening
  | issuesDetected
  | correcting
  | validating
  | fixSuccess
  | fixFailed
  | completed
  | aborted
deriving Repr, DecidableEq

/-- `Issue` dataclass of `main.py`. -/
structure Issue where
  file_path : String
  line_number : Option Int
  issue_type : String
  description : String
  severity : String
  suggested_fix : Option String
deriving Repr, DecidableEq

/-- One entry of `SwarmContext.applied_fixes`: the dict appended by
`CorrectorAgent.run` (`{"file": ..., "issues_fixed": ..., "iteration": ...}`). -/
structure FixRecord where
  file : String
  issues_fixed : Nat
  iteration : Int
deriving Repr, DecidableEq

/-- One entry of `SwarmContext.validation_results`: the dict appended by
`ValidatorAgent._analyze_test_results` (the opaque `test_results` blob is
not modelled). -/
structure ValidationRecord where
  iteration : Int
  agent : String
deriving Repr, DecidableEq

/-- `SwarmContext` dataclass of `main.py` (the "baton"). Timestamps are
modelled by presence only. -/
structure SwarmContext where
  target_dir : String
  current_state : SwarmState
  current_agent : Option AgentRole
  iteration : Int
  max_iterations : Int
  detected_issues : List Issue
  applied_fixes : List FixRecord
  validation_results : List ValidationRecord
  test_error_logs : List String
  last_failed_tests : List String
  healing_attempts : Int
  started_at : Option Unit
  ended_at : Option Unit
  error_log : List String
deriving Repr, DecidableEq

/-- The dataclass defaults of `SwarmContext` (`main.py`): a fresh context for
a target directory and an iteration budget. -/
def freshContext (t : String) (m : Int) : SwarmContext where
  target_dir := t
  current_state := .idle
  current_agent := none
  iteration := 0
  max_iterations := m
  detected_issues := []
  applied_fixes := []
  validation_results := []
  test_error_logs := []
  last_failed_tests := []
  healing_attempts := 0
  started_at := none
  ended_at := none
  error_log := []

/-- `SwarmContext.should_continue` (`main.py` lines 146-154). -/
def shouldContinue (c : SwarmContext) : Bool :=
  if c.current_state = SwarmState.completed then false
  else if c.current_state = SwarmState.aborted then false
  else if c.iteration ≥ c.max_iterations then false
  else true

/-- `SwarmContext.has_unresolved_issues` (`main.py` lines 156-158). -/
def hasUnresolvedIssues (c : SwarmContext) : Bool :=
  c.detected_issues.length > 0

/-- `RelayOrchestrator.determine_next_agent` (`main.py` lines 189-236).
The Python method reads and mutates `self.context` (it increments
`healing_attempts` in the `FIX_FAILED` branch), so it is modelled as
returning the chosen role together with the updated context. -/
def determineNextAgent (c : SwarmContext) : Option AgentRole × SwarmContext :=
  match c.current_state with
  | .idle => (some .listener, c)
  | .listening => (none, c)
  | .issuesDetected => (some .corrector, c)
  | .correcting => (none, c)
  | .validating => (none, c)
  | .fixSuccess =>
      if hasUnresolvedIssues c then (some .corrector, c) else (none, c)
  | .fixFailed =>
      let c' := { c with healing_attempts := c.healing_attempts + 1 }
      if c'.iteration < c'.max_iterations then (some .corrector, c')
      else (none, c')
  | .completed => (none, c)
  | .aborted => (none, c)

/-- `RelayOrchestrator.should_stop_loop` (`main.py` lines 238-264), with the
exact reason strings the code produces. -/
def shouldStopLoop (c : SwarmContext) : Bool × String :=
  if c.iteration ≥ c.max_iterations then
    (true, "Max iterations reached (" ++ toString c.max_iterations ++ ")")
  else if c.current_state = SwarmState.completed then
    (true, "All issues resolved successfully")
  else if c.current_state = SwarmState.aborted then
    (true, "Pipeline aborted: " ++ (c.error_log.getLast?.getD "Unknown error"))
  else if c.current_state = SwarmState.listening
      ∧ ¬ hasUnresolvedIssues c ∧ c.iteration > 0 then
    (true, "No issues detected - code is clean")
  else
    (false, "")

/-- `RelayOrchestrator.handover_to` (`main.py` lines 272-286): records the
agent taking over and moves to its entering state. -/
def handoverTo (role : AgentRole) (c : SwarmContext) : SwarmContext :=
  let c := { c with current_agent := some role }
  match role with
  | .listener => { c with current_state := .listening }
  | .corrector => { c with current_state := .correcting }
  | .validator => { c with current_state := .validating }
  | .orchestrator => c

/-- The agent registry `RelayOrchestrator._agents`: a role is either
unregistered (`none`) or bound to an implementation of the stage contract
`run(context) -> context`, whose `.error` case models a raised exception. -/
def Agents : Type :=
  AgentRole → Option (SwarmContext → Except String SwarmContext)

/-- The empty registry: no agent registered for any role. -/
def noAgents : Agents := fun _ => none

/-- Outcome of one pass of the `while` body of `run_pipeline`:
`brk` models `break`, `cont` models falling through to the next
`should_continue` check. -/
inductive PassResult where
  | brk (c : SwarmContext)
  | cont (c : SwarmContext)
deriving Repr, DecidableEq

/-- The context carried out of a pass, whether it broke or continued. -/
def passCtx : PassResult → SwarmContext
  | .brk c => c
  | .cont c => c

/-- One pass of the `while` body of `RelayOrchestrator.run_pipeline`
(`main.py` lines 298-331): increment `iteration`, ask
`determine_next_agent`, on `None` consult `should_stop_loop`, otherwise
hand over and invoke the registered agent (converting a raised exception
to an `errorLog` entry plus `ABORTED`), or simulate progression when the
role is unregistered. -/
def loopPass (ag : Agents) (c : SwarmContext) : PassResult :=
  let d := determineNextAgent { c with iteration := c.iteration + 1 }
  match d.fst with
  | none =>
      if (shouldStopLoop d.snd).fst then .brk d.snd else .cont d.snd
  | some role =>
      let c2 := handoverTo role d.snd
      match ag role with
      | some f =>
          match f c2 with
          | .ok c3 => .cont c3
          | .error e =>
              .brk { c2 with
                       error_log := c2.error_log ++ [e],
                       current_state := .aborted }
      | none =>
          if role = AgentRole.listener then
            .cont { c2 with current_state := .completed }
          else
            .cont c2

/-- The `while should_continue` loop of `run_pipeline`, with explicit fuel.
Returns the context at loop exit together with the number of loop passes
executed, or `none` if the loop is still running after `fuel` passes. -/
def runLoop (ag : Agents) : Nat → SwarmContext → Option (SwarmContext × Nat)
  | 0, c => if shouldContinue c then none else some (c, 0)
  | n + 1, c =>
      if shouldContinue c then
        match loopPass ag c with
        | .brk c' => some (c', 1)
        | .cont c' =>
            match runLoop ag n c' with
            | some (c'', k) => some (c'', k + 1)
            | none => none
      else some (c, 0)

/-- The finalization step of `run_pipeline` (`main.py` lines 333-338):
record the end time and force `COMPLETED` if no terminal state was
reached. -/
def finalize (c : SwarmContext) : SwarmContext :=
  let c := { c with ended_at := some () }
  if c.current_state = SwarmState.completed ∨ c.current_state = SwarmState.aborted
  then c
  else { c with current_state := .completed }

/-- `RelayOrchestrator.run_pipeline` (`main.py` lines 288-338): record the
start time, run the loop, finalize. The pass count is returned alongside
the final context. -/
def runPipeline (ag : Agents) (fuel : Nat) (c : SwarmContext) :
    Option (SwarmContext × Nat) :=
  (runLoop ag fuel { c with started_at := some () }).map
    (fun p => (finalize p.fst, p.snd))

/-! ## Graph variant (`src/graph/execution_graph.py`) -/

/-- `SwarmState` enum of `execution_graph.py` (it has `FIXING` where
`main.py` has `CORRECTING`). -/
inductive GSwarmState where
  | idle
  | listening
  | issuesDetected
  | fixing
  | validating
  | fixSuccess
  | fixFailed
  | completed
  | aborted
deriving Repr, DecidableEq

/-- `GraphState` TypedDict of `execution_graph.py` (the injected `agents`
dict and the `verbose` flag are not part of the data model). -/
structure GraphState where
  target_dir : String
  max_iterations : Int
  current_state : GSwarmState
  current_agent : String
  iteration : Int
  detected_issues : List Issue
  applied_fixes : List FixRecord
  validation_results : List ValidationRecord
  test_error_logs : List String
  last_failed_tests : List String
  healing_attempts : Int
  started_at : String
  ended_at : String
  error_log : List String
deriving Repr, DecidableEq

/-- `should_fix` (`execution_graph.py` lines 312-325): the decision edge
after the Listener node, returning the label of the outgoing edge. -/
def should_fix (s : GraphState) : String :=
  if s.current_state = GSwarmState.aborted then "end"
  else if s.current_state = GSwarmState.issuesDetected then "corrector"
  else "end"

/-- `should_continue_healing` (`execution_graph.py` lines 328-353): the
decision edge after the Validator node. The Python function mutates
`state["iteration"]` in the `FIX_FAILED` branch, so it is modelled as
returning the edge label together with the updated state. -/
def should_continue_healing (s : GraphState) : String × GraphState :=
  if s.current_state = GSwarmState.aborted then ("end", s)
  else if s.current_state = GSwarmState.fixSuccess then ("end", s)
  else if s.current_state = GSwarmState.fixFailed then
    let s := { s with iteration := s.iteration + 1 }
    if s.iteration < s.max_iterations then ("corrector", s) else ("end", s)
  else ("end", s)

/-- Correspondence between the two state enums: `FIXING` is the graph's
name for the manual loop's `CORRECTING`; every other tag matches by name. -/
def gTagToSwarm : GSwarmState → SwarmState
  | .idle => .idle
  | .listening => .listening
  | .issuesDetected => .issuesDetected
  | .fixing => .correcting
  | .validating => .validating
  | .fixSuccess => .fixSuccess
  | .fixFailed => .fixFailed
  | .completed => .completed
  | .aborted => .aborted

/-- The manual-loop context corresponding to a graph state: same shared
fields, states mapped through `gTagToSwarm` (the string-typed
`current_agent` and timestamps of the graph state have no direct
counterpart and are dropped). -/
def gstateToSwarm (s : GraphState) : SwarmContext where
  target_dir := s.target_dir
  current_state := gTagToSwarm s.current_state
  current_agent := none
  iteration := s.iteration
  max_iterations := s.max_iterations
  detected_issues := s.detected_issues
  applied_fixes := s.applied_fixes
  validation_results := s.validation_results
  test_error_logs := s.test_error_logs
  last_failed_tests := s.last_failed_tests
  healing_attempts := s.healing_attempts
  started_at := none
  ended_at := none
  error_log := s.error_log

/-! ## Corrector agent control-flow skeleton
(`src/agents/corrector_agent.py`, `CorrectorAgent.run`)

The file system, the path-matching of issues to files and the LLM call are
external oracles (spec §1 puts them out of scope); each file the corrector
iterates over is summarized by the oracle data the control flow branches
on. -/

/-- Outcome of `fix_code` + `safe_write` for one file: the LLM either
produced code (possibly empty or unchanged) or raised. -/
inductive FixOutcome where
  | ok (fixedCode : String)
  | raised (msg : String)
deriving Repr, DecidableEq

/-- Oracle summary of one file in the corrector's per-file loop
(`corrector_agent.py` lines 295-367). -/
structure FileJob where
  path : String
  readResult : Option String
  isTestFile : Bool
  matchedIssues : Nat
  fixOutcome : FixOutcome
deriving Repr, DecidableEq

/-- The body of the corrector's per-file loop (`corrector_agent.py` lines
295-367): skip unreadable files, skip test files on iteration 0, skip files
with no matched issues when there are no self-healing logs; otherwise apply
the fix outcome, recording an applied fix when the code changed and an
`error_log` entry when `fix_code` raised. Returns the updated context and
whether this file counted into `files_fixed`. -/
def processFile (c : SwarmContext) (job : FileJob) : SwarmContext × Bool :=
  match job.readResult with
  | none => (c, false)
  | some original =>
      if job.isTestFile ∧ c.iteration = 0 then (c, false)
      else if job.matchedIssues = 0 ∧ c.test_error_logs = [] then (c, false)
      else
        match job.fixOutcome with
        | .raised msg =>
            ({ c with error_log :=
                 c.error_log ++ ["Corrector error on " ++ job.path ++ ": " ++ msg] },
             false)
        | .ok code =>
            if code ≠ "" ∧ code ≠ original then
              ({ c with applied_fixes :=
                   c.applied_fixes ++ [({ file := job.path, issues_fixed := job.matchedIssues, iteration := c.iteration } : FixRecord)] },
               true)
            else (c, false)

/-- Oracle for a whole corrector invocation: either the outer `try` raises
(e.g. in `list_python_files`), or it yields the per-file jobs. -/
inductive CorrectorOracle where
  | raised (msg : String)
  | files (jobs : List FileJob)
deriving Repr, DecidableEq

/-- `CorrectorAgent.run` (`corrector_agent.py` lines 248-403): set
`CORRECTING`, then either the no-Python-files early return (lines 285-288,
state `FIX_SUCCESS`, *without* clearing `test_error_logs`), or the per-file
loop followed by the state update (lines 369-377) and the clearing of
`test_error_logs` (line 380), or the outer `except` path (lines 384-403,
state `FIX_FAILED`). -/
def correctorRun (o : CorrectorOracle) (c : SwarmContext) : SwarmContext :=
  let c0 := { c with current_state := .correcting, current_agent := some .corrector }
  match o with
  | .raised msg =>
      { c0 with error_log := c0.error_log ++ ["Corrector error: " ++ msg],
                current_state := .fixFailed }
  | .files [] => { c0 with current_state := .fixSuccess }
  | .files (j :: js) =>
      let p := (j :: js).foldl
        (fun acc job =>
          let r := processFile acc.fst job
          (r.fst, acc.snd + (if r.snd then 1 else 0)))
        (c0, (0 : Nat))
      let c1 :=
        if p.snd > 0 then { p.fst with current_state := .validating }
        else { p.fst with current_state := .fixSuccess }
      { c1 with test_error_logs := [] }

/-! ## Validator result analysis
(`src/agents/validator_agent.py`, `_analyze_test_results`) -/

/-- The pytest result dict handed to `_analyze_test_results`. The pytest
output string is summarized by the lines a scan for
`FAILED`/`AssertionError`/`Error:` would extract (`validator_agent.py`
lines 571-579). -/
structure TestResults where
  success : Bool
  passed : Int
  failed : Int
  total : Int
  error_messages : List String
  outputFailedLines : List String
  failedTestNames : List String
deriving Repr, DecidableEq

/-- `ValidatorAgent._analyze_test_results` (`validator_agent.py` lines
526-606): append a validation record; on success mark `FIX_SUCCESS`; on
failure mark `FIX_FAILED`, build the detailed error list into
`test_error_logs`, record the failed test names, increment
`healing_attempts` and append to `error_log`. -/
def analyzeTestResults (agentName : String) (res : TestResults)
    (c : SwarmContext) : SwarmContext :=
  let c := { c with validation_results :=
               c.validation_results ++ [({ iteration := c.iteration, agent := agentName } : ValidationRecord)] }
  if res.success then
    { c with current_state := .fixSuccess }
  else
    let header := "Test run failed: " ++ toString res.failed ++ " of "
        ++ toString res.total ++ " tests failed"
    let numbered := (res.error_messages.enum).map
        (fun p => "Error " ++ toString (p.fst + 1) ++ ": " ++ p.snd)
    let tail :=
        if res.outputFailedLines = [] then []
        else "\nFailed tests details:" :: res.outputFailedLines
    { c with
        current_state := .fixFailed,
        test_error_logs := header :: numbered ++ tail,
        last_failed_tests := res.failedTestNames,
        healing_attempts := c.healing_attempts + 1,
        error_log := c.error_log ++
          ["Validation failed at iteration " ++ toString c.iteration ++ ": "
             ++ toString res.failed ++ " tests failed"] }

/-! ## Spec-side definitions (from the claims' wording, for comparison) -/

/-- Modelled from the spec: the transition table of spec §4.2 as the claim
states it — Idle to the Listener, IssuesDetected to the Corrector,
Listening/Correcting/Validating to null, FixSucceeded to the Corrector iff
`detectedIssues` is non-empty, FixFailed to the Corrector iff
`iteration < maxIterations`, Completed/Aborted to null. -/
def nextStageSpec (c : SwarmContext) : Option AgentRole :=
  match c.current_state with
  | .idle => some .listener
  | .listening => none
  | .issuesDetected => some .corrector
  | .correcting => none
  | .validating => none
  | .fixSuccess => if c.detected_issues.isEmpty then none else some .corrector
  | .fixFailed => if c.iteration < c.max_iterations then some .corrector else none
  | .completed => none
  | .aborted => none

/-- First-match evaluation over an ordered rule list: the shape the claim
prescribes for the stop-condition evaluator. -/
def firstMatch : List (Bool × String) → Bool × String
  | [] => (false, "")
  | (b, r) :: rest => if b then (true, r) else firstMatch rest

/-- The four stop rules, in the claimed order, with the reason strings the
code actually produces. -/
def stopRules (c : SwarmContext) : List (Bool × String) :=
  [ (decide (c.iteration ≥ c.max_iterations),
     "Max iterations reached (" ++ toString c.max_iterations ++ ")"),
    (decide (c.current_state = SwarmState.completed),
     "All issues resolved successfully"),
    (decide (c.current_state = SwarmState.aborted),
     "Pipeline aborted: " ++ (c.error_log.getLast?.getD "Unknown error")),
    (decide (c.current_state = SwarmState.listening) &&
       !(hasUnresolvedIssues c) && decide (c.iteration > 0),
     "No issues detected - code is clean") ]

/-- Stages that do not change the iteration counter or the budget when they
return normally (unregistered roles impose nothing). This is spec §3's
single-writer reading of `iteration`/`maxIterations`: only the orchestrator
writes them. -/
def PreservesCounters (ag : Agents) : Prop :=
  ∀ role f c c', ag role = some f → f c = Except.ok c' →
    c'.iteration = c.iteration ∧ c'.max_iterations = c.max_iterations

/-! ## Concrete inputs for counterexamples and witnesses -/

/-- A context in which `run_pipeline` executes more loop passes than
`maxIterations`: issues already detected, a negative starting iteration
counter (the claim constrains only `maxIterations ≥ 0`). -/
def cexOverrun : SwarmContext :=
  { freshContext "demo" 1 with current_state := .issuesDetected, iteration := -2 }

/-- A context at the iteration budget, for evaluating the stop reason. -/
def cexBudget : SwarmContext :=
  { freshContext "demo" 3 with iteration := 3 }

/-- A context in the `FIX_FAILED` state with retries left. -/
def cexHealing : SwarmContext :=
  { freshContext "demo" 3 with current_state := .fixFailed, iteration := 1 }

/-- The final context of `runPipeline noAgents 1 (freshContext "w" 1)`:
the Listener role is unregistered, so the first pass simulates completion. -/
def unregisteredFinal : SwarmContext :=
  { freshContext "w" 1 with
      current_state := .completed,
      current_agent := some .listener,
      iteration := 1,
      started_at := some (),
      ended_at := some () }

/-- A sample issue, as the Listener would produce it. -/
def demoIssue : Issue :=
  { file_path := "calc.py", line_number := some 3, issue_type := "bug",
    description := "off by one", severity := "critical", suggested_fix := none }

/-- A pytest result in which one test of one fails. -/
def failingResults : TestResults :=
  { success := false, passed := 0, failed := 1, total := 1,
    error_messages := ["assert 2 == 3"],
    outputFailedLines := ["FAILED test_calc.py::test_add - AssertionError"],
    failedTestNames := ["test_calc.py::test_add"] }

/-- A registry whose Corrector stage models a correction attempt whose
validation fails: it performs the correction handover state and then the
validator's failure analysis (`_analyze_test_results` with a failing
result), exactly the combined effect the spec's Scenario of consecutive
validation failures prescribes. -/
def agFailingFix : Agents := fun role =>
  match role with
  | .corrector => some (fun c =>
      Except.ok (analyzeTestResults "Validator_Agent" failingResults
        { c with current_state := .validating }))
  | _ => none

/-- Initial context for the consecutive-validation-failure scenario:
issues already detected, budget of one iteration, so the single correction
attempt equals the whole budget. -/
def ctxScenarioFail : SwarmContext :=
  { freshContext "demo" 1 with
      current_state := .issuesDetected, detected_issues := [demoIssue] }

/-- A graph state just after a Validator failure with one retry budget. -/
def gsAfterFailure : GraphState :=
  { target_dir := "demo", max_iterations := 1, current_state := .fixFailed,
    current_agent := "validator", iteration := 0,
    detected_issues := [demoIssue], applied_fixes := [],
    validation_results := [], test_error_logs := ["e1"],
    last_failed_tests := [], healing_attempts := 0,
    started_at := "", ended_at := "", error_log := [] }

/-- A context holding self-healing logs handed to the Corrector. -/
def ctxWithLogs : SwarmContext :=
  { freshContext "demo" 3 with
      current_state := .fixFailed, iteration := 1,
      test_error_logs := ["Error 1: assert 2 == 3"] }

/-- A single correctable file job whose fix changes the code. -/
def demoJob : FileJob :=
  { path := "calc.py", readResult := some "def add(a, b): return a - b",
    isTestFile := false, matchedIssues := 1,
    fixOutcome := .ok "def add(a, b): return a + b" }

/-- The final context of `runPipeline noAgents 2 (freshContext "t" 2)`. -/
def demoFinal2 : SwarmContext :=
  { freshContext "t" 2 with
      current_state := .completed,
      current_agent := some .listener,
      iteration := 1,
      started_at := some (),
      ended_at := some () }

/-- A registry whose Listener implementation raises on every invocation. -/
def agRaising : Agents := fun role =>
  match role with
  | .listener => some (fun _ => Except.error "boom")
  | _ => none

/-- The context `run_pipeline`'s loop breaks with when `agRaising`'s
Listener raises on the first pass over `freshContext "x" 3`. -/
def abortedDemo : SwarmContext :=
  { freshContext "x" 3 with
      iteration := 1,
      current_agent := some .listener,
      current_state := .aborted,
      error_log := ["boom"] }

/-! ## Helper lemmas -/

theorem detNA_snd (c : SwarmContext) :
    (determineNextAgent c).snd =
      if c.current_state = SwarmState.fixFailed then
        { c with healing_attempts := c.healing_attempts + 1 }
      else c := by
  rcases hcs : c.current_state <;>
    simp only [determineNextAgent, hcs] <;>
    first
      | rfl
      | (split <;> simp_all)

theorem detNA_iteration (c : SwarmContext) :
    (determineNextAgent c).snd.iteration = c.iteration := by
  rw [detNA_snd]; split <;> rfl

theorem detNA_max (c : SwarmContext) :
    (determineNextAgent c).snd.max_iterations = c.max_iterations := by
  rw [detNA_snd]; split <;> rfl

theorem detNA_error_log (c : SwarmContext) :
    (determineNextAgent c).snd.error_log = c.error_log := by
  rw [detNA_snd]; split <;> rfl

theorem handoverTo_iteration (role : AgentRole) (c : SwarmContext) :
    (handoverTo role c).iteration = c.iteration := by
  cases role <;> rfl

theorem handoverTo_max (role : AgentRole) (c : SwarmContext) :
    (handoverTo role c).max_iterations = c.max_iterations := by
  cases role <;> rfl

theorem handoverTo_error_log (role : AgentRole) (c : SwarmContext) :
    (handoverTo role c).error_log = c.error_log := by
  cases role <;> rfl

theorem shouldContinue_true_iff (c : SwarmContext) :
    shouldContinue c = true ↔
      c.current_state ≠ SwarmState.completed
      ∧ c.current_state ≠ SwarmState.aborted
      ∧ c.iteration < c.max_iterations := by
  unfold shouldContinue
  split
  · simp_all
  · split
    · simp_all
    · split <;> simp_all

theorem finalize_state (c : SwarmContext) :
    (finalize c).current_state = SwarmState.completed
      ∨ (finalize c).current_state = SwarmState.aborted := by
  simp only [finalize]
  split
  · simp_all
  · left; rfl

theorem finalize_ended (c : SwarmContext) : (finalize c).ended_at = some () := by
  simp only [finalize]; split <;> rfl

theorem finalize_iteration (c : SwarmContext) :
    (finalize c).iteration = c.iteration := by
  simp only [finalize]; split <;> rfl

theorem loopPass_counters (ag : Agents) (hp : PreservesCounters ag)
    (c : SwarmContext) :
    (passCtx (loopPass ag c)).iteration = c.iteration + 1
      ∧ (passCtx (loopPass ag c)).max_iterations = c.max_iterations := by
  unfold loopPass
  rcases hfst : (determineNextAgent { c with iteration := c.iteration + 1 }).fst
    with _ | role
  · simp only [hfst]
    have hi := detNA_iteration { c with iteration := c.iteration + 1 }
    have hm := detNA_max { c with iteration := c.iteration + 1 }
    split <;> simp_all [passCtx]
  · simp only [hfst]
    have hi := detNA_iteration { c with iteration := c.iteration + 1 }
    have hm := detNA_max { c with iteration := c.iteration + 1 }
    rcases hag : ag role with _ | f
    · simp only [hag]
      split <;>
        simp_all [passCtx, handoverTo_iteration, handoverTo_max]
    · simp only [hag]
      rcases hrun : f (handoverTo role
          (determineNextAgent { c with iteration := c.iteration + 1 }).snd)
        with e | c3
      · simp_all [passCtx, handoverTo_iteration, handoverTo_max]
      · have := hp role f _ _ hag hrun
        simp_all [passCtx, handoverTo_iteration, handoverTo_max]

theorem runLoop_sound (ag : Agents) (hp : PreservesCounters ag) :
    ∀ (n : Nat) (c : SwarmContext),
      (c.max_iterations - c.iteration).toNat = n →
      ∃ p, runLoop ag n c = some p
        ∧ p.fst.iteration = c.iteration + p.snd
        ∧ p.fst.max_iterations = c.max_iterations
        ∧ p.snd ≤ n := by
  intro n
  induction n with
  | zero =>
      intro c hn
      rcases hsc : shouldContinue c with _ | _
      · exact ⟨(c, 0), by simp [runLoop, hsc], by simp, rfl, Nat.le_refl 0⟩
      · exfalso
        have := (shouldContinue_true_iff c).mp hsc
        omega
  | succ n ih =>
      intro c hn
      rcases hsc : shouldContinue c with _ | _
      · exact ⟨(c, 0), by simp [runLoop, hsc], by simp, rfl, Nat.zero_le _⟩
      · have hlt := ((shouldContinue_true_iff c).mp hsc).2.2
        have hcnt := loopPass_counters ag hp c
        rcases hlp : loopPass ag c with c' | c'
        · refine ⟨(c', 1), ?_, ?_, ?_, ?_⟩
          · simp [runLoop, hsc, hlp]
          · have : passCtx (loopPass ag c) = c' := by rw [hlp]; rfl
            rw [this] at hcnt; simp [hcnt.1]
          · have : passCtx (loopPass ag c) = c' := by rw [hlp]; rfl
            rw [this] at hcnt; exact hcnt.2
          · omega
        · have hpc : passCtx (loopPass ag c) = c' := by rw [hlp]; rfl
          rw [hpc] at hcnt
          have hn' : (c'.max_iterations - c'.iteration).toNat = n := by
            rw [hcnt.1, hcnt.2]; omega
          obtain ⟨⟨c'', k⟩, hrun, hit, hmx, hk⟩ := ih c' hn'
          refine ⟨(c'', k + 1), ?_, ?_, ?_, ?_⟩
          · simp [runLoop, hsc, hlp, hrun]
          · simp only at hit
            simp [hit, hcnt.1]; omega
          · simp only at hmx
            simp [hmx, hcnt.2]
          · omega

/-! ## Claim theorems -/

/-- Claim C2: for every context, `determine_next_agent` returns exactly what
the spec's state table prescribes — Idle to the Listener, IssuesDetected to
the Corrector, Listening/Correcting/Validating to null, FixSucceeded to the
Corrector iff `detectedIssues` is non-empty, FixFailed to the Corrector iff
`iteration < maxIterations`, Completed/Aborted to null. -/
theorem C2_transition_table (c : SwarmContext) :
    (determineNextAgent c).fst = nextStageSpec c := by
  rcases hcs : c.current_state <;>
    simp only [determineNextAgent, nextStageSpec, hcs]
  · by_cases h : c.detected_issues = [] <;>
      simp [hasUnresolvedIssues, h, List.length_pos]
  · by_cases h : c.iteration < c.max_iterations <;> simp [h]

/-- Claim C3, counterexample: at the iteration budget the evaluator stops,
but its reason string is the code's "Max iterations reached (3)", not the
claim's "max iterations reached". -/
theorem C3_counterexample :
    (shouldStopLoop cexBudget).fst = true
    ∧ (shouldStopLoop cexBudget).snd = "Max iterations reached (3)"
    ∧ (shouldStopLoop cexBudget).snd ≠ "max iterations reached" := by
  decide

/-- Claim C3 (amended): `should_stop_loop` is first-match evaluation of the
four rules in the claimed order — budget exhaustion, Completed, Aborted
(with the last `errorLog` entry), clean Listening — but with the code's
reason strings: "Max iterations reached (N)", "All issues resolved
successfully", "Pipeline aborted: <last errorLog entry or Unknown error>",
"No issues detected - code is clean"; `(false, "")` when no rule matches. -/
theorem C3_stop_rules_in_order (c : SwarmContext) :
    shouldStopLoop c = firstMatch (stopRules c) := by
  unfold shouldStopLoop stopRules
  by_cases h1 : c.iteration ≥ c.max_iterations
  · simp [firstMatch, h1]
  · by_cases h2 : c.current_state = SwarmState.completed
    · simp [firstMatch, h1, h2]
    · by_cases h3 : c.current_state = SwarmState.aborted
      · simp [firstMatch, h1, h2, h3]
      · by_cases h4 : c.current_state = SwarmState.listening
            ∧ ¬ hasUnresolvedIssues c ∧ c.iteration > 0
        · obtain ⟨ha, hb, hc2⟩ := h4
          simp [firstMatch, h1, h2, h3, ha, hb, hc2]
        · simp only [firstMatch, h1, h2, h3, h4]
          have hno : ¬ ((c.current_state = SwarmState.listening
              ∧ hasUnresolvedIssues c = false) ∧ 0 < c.iteration) := by
            rintro ⟨⟨ha, hb⟩, hcc⟩
            exact h4 ⟨ha, by simp [hb], hcc⟩
          simp [hno]

/-- Claim C8, counterexample: in the `FIX_FAILED` state,
`determine_next_agent` mutates the context — it increments
`healing_attempts` — so it is not a pure function of the context. -/
theorem C8_counterexample :
    (determineNextAgent cexHealing).snd ≠ cexHealing
    ∧ (determineNextAgent cexHealing).snd.healing_attempts
        = cexHealing.healing_attempts + 1 := by
  decide

/-- Claim C8 (amended): `determine_next_agent` is deterministic and leaves
the context unchanged in every state except `FixFailed`, where it
increments `healingAttempts` by exactly one and changes nothing else. -/
theorem C8_purity_characterized (c : SwarmContext) :
    (c.current_state ≠ SwarmState.fixFailed → (determineNextAgent c).snd = c)
    ∧ (c.current_state = SwarmState.fixFailed →
        (determineNextAgent c).snd =
          { c with healing_attempts := c.healing_attempts + 1 }) := by
  rw [detNA_snd]
  constructor <;> intro h <;> simp [h]

/-- Claim C8, witness: on a context not in `FIX_FAILED` the call indeed
leaves the context untouched. -/
theorem C8_witness : (determineNextAgent cexBudget).snd = cexBudget :=
  (C8_purity_characterized cexBudget).1 (by decide)

/-- Claim C4: whenever `run_pipeline` returns, `endedAt` is set and the
final state is `Completed` or `Aborted` — the finalization step forces
`Completed` if the loop exited in a non-terminal state. -/
theorem C4_terminal_on_return (ag : Agents) (fuel : Nat)
    (c r : SwarmContext) (k : Nat)
    (h : runPipeline ag fuel c = some (r, k)) :
    r.ended_at = some ()
    ∧ (r.current_state = SwarmState.completed
        ∨ r.current_state = SwarmState.aborted) := by
  unfold runPipeline at h
  rcases hrl : runLoop ag fuel { c with started_at := some () } with _ | p
  · rw [hrl] at h; simp at h
  · rw [hrl] at h
    simp only [Option.map_some', Option.some.injEq, Prod.mk.injEq] at h
    obtain ⟨h1, _⟩ := h
    exact ⟨h1 ▸ finalize_ended p.fst, h1 ▸ finalize_state p.fst⟩

/-- Claim C4, witness: a concrete run (Listener unregistered) returns with
`endedAt` set and a terminal state. -/
theorem C4_witness :
    runPipeline noAgents 1 (freshContext "w" 1) = some (unregisteredFinal, 1)
    ∧ unregisteredFinal.ended_at = some ()
    ∧ (unregisteredFinal.current_state = SwarmState.completed
        ∨ unregisteredFinal.current_state = SwarmState.aborted) := by
  refine ⟨by decide, ?_, ?_⟩
  · exact (C4_terminal_on_return noAgents 1 (freshContext "w" 1)
      unregisteredFinal 1 (by decide)).1
  · exact (C4_terminal_on_return noAgents 1 (freshContext "w" 1)
      unregisteredFinal 1 (by decide)).2

/-- Claim C10: with no agent registered for the Listener role, a fresh Idle
context (any budget of at least one) runs exactly one loop pass: the
degraded mode simulates successful completion — final state `Completed`,
`iteration` 1, empty `errorLog`. -/
theorem C10_unregistered_completion (ag : Agents) (t : String) (m : Int)
    (hL : ag AgentRole.listener = none) (hm : 1 ≤ m) :
    (runPipeline ag 1 (freshContext t m)).map
      (fun p => (p.fst.current_state, p.fst.iteration, p.fst.error_log, p.snd))
      = some (SwarmState.completed, 1, [], 1) := by
  have h0 : ¬ ((0 : Int) ≥ m) := by omega
  simp [runPipeline, runLoop, loopPass, determineNextAgent, handoverTo,
    shouldContinue, freshContext, finalize, hL, h0]

/-- Claim C10, witness: the empty registry on a fresh context with the
default-compatible budget 1. -/
theorem C10_witness :
    (runPipeline noAgents 1 (freshContext "w" 1)).map
      (fun p => (p.fst.current_state, p.fst.iteration, p.fst.error_log, p.snd))
      = some (SwarmState.completed, 1, [], 1) :=
  C10_unregistered_completion noAgents "w" 1 rfl (by decide)

/-- Claim C7, counterexample: when the target directory contains no Python
files, `CorrectorAgent.run` takes the early `FIX_SUCCESS` return, which
leaves the self-healing `test_error_logs` untouched — a successful
invocation after which `testFailureLogs` is non-empty. -/
theorem C7_counterexample :
    (correctorRun (CorrectorOracle.files []) ctxWithLogs).current_state
      = SwarmState.fixSuccess
    ∧ (correctorRun (CorrectorOracle.files []) ctxWithLogs).test_error_logs
      = ["Error 1: assert 2 == 3"]
    ∧ (correctorRun (CorrectorOracle.files []) ctxWithLogs).test_error_logs
      ≠ [] := by
  decide

/-- Claim C7 (amended): after every Corrector invocation that returns
without raising and iterates over at least one Python file,
`test_error_logs` is cleared; only the no-Python-files early return skips
the clearing. -/
theorem C7_clears_logs (jobs : List FileJob) (c : SwarmContext)
    (h : jobs ≠ []) :
    (correctorRun (CorrectorOracle.files jobs) c).test_error_logs = [] := by
  cases jobs with
  | nil => exact absurd rfl h
  | cons j js => rfl

/-- Claim C7, witness: the clearing on a one-file invocation that applies a
fix. -/
theorem C7_witness :
    (correctorRun (CorrectorOracle.files [demoJob]) ctxWithLogs).test_error_logs
      = [] :=
  C7_clears_logs [demoJob] ctxWithLogs (by decide)

/-- Claim C9, counterexample: on the graph state reached after a Validator
failure with `iteration = 0`, `maxIterations = 1`, the graph's
`should_continue_healing` terminates ("end") while the manual loop's
`determine_next_agent` selects the Corrector; moreover the graph predicate
increments `iteration` and leaves `healing_attempts` alone, while the
manual transition increments `healing_attempts` and leaves `iteration`
alone. -/
theorem C9_counterexample :
    (should_continue_healing gsAfterFailure).fst = "end"
    ∧ (determineNextAgent (gstateToSwarm gsAfterFailure)).fst
        = some AgentRole.corrector
    ∧ (should_continue_healing gsAfterFailure).snd.iteration
        = gsAfterFailure.iteration + 1
    ∧ (should_continue_healing gsAfterFailure).snd.healing_attempts
        = gsAfterFailure.healing_attempts
    ∧ (determineNextAgent (gstateToSwarm gsAfterFailure)).snd.iteration
        = gsAfterFailure.iteration
    ∧ (determineNextAgent (gstateToSwarm gsAfterFailure)).snd.healing_attempts
        = gsAfterFailure.healing_attempts + 1
    ∧ "end" ≠ "corrector" := by
  decide

/-- Claim C9 (amended): after the Listener, the graph's `should_fix` agrees
with the manual loop's `determine_next_agent` (Corrector exactly on
IssuesDetected); after the Validator they diverge on `FixFailed`:
`should_continue_healing` increments `iteration` (not `healingAttempts`)
and retries iff `iteration + 1 < maxIterations`, while
`determine_next_agent` increments `healingAttempts` (not `iteration`) and
retries iff `iteration < maxIterations`; and on `FixSucceeded` the graph
always terminates ("end", state untouched) even when issues remain, while
the manual loop selects the Corrector exactly when `detectedIssues` is
non-empty. -/
theorem C9_graph_divergence (s : GraphState) :
    ((s.current_state = GSwarmState.issuesDetected
        ∨ s.current_state = GSwarmState.completed
        ∨ s.current_state = GSwarmState.aborted) →
      (should_fix s = "corrector"
        ↔ (determineNextAgent (gstateToSwarm s)).fst = some AgentRole.corrector))
    ∧ (s.current_state = GSwarmState.fixFailed →
        ((should_continue_healing s).fst = "corrector"
            ↔ s.iteration + 1 < s.max_iterations)
        ∧ ((determineNextAgent (gstateToSwarm s)).fst = some AgentRole.corrector
            ↔ s.iteration < s.max_iterations)
        ∧ (should_continue_healing s).snd.iteration = s.iteration + 1
        ∧ (should_continue_healing s).snd.healing_attempts = s.healing_attempts
        ∧ (determineNextAgent (gstateToSwarm s)).snd.iteration = s.iteration
        ∧ (determineNextAgent (gstateToSwarm s)).snd.healing_attempts
            = s.healing_attempts + 1)
    ∧ (s.current_state = GSwarmState.fixSuccess →
        (should_continue_healing s).fst = "end"
        ∧ (should_continue_healing s).snd = s
        ∧ ((determineNextAgent (gstateToSwarm s)).fst = some AgentRole.corrector
            ↔ s.detected_issues ≠ [])) := by
  refine ⟨?_, ?_, ?_⟩
  · rintro (h | h | h) <;>
      simp [should_fix, determineNextAgent, gstateToSwarm, gTagToSwarm, h]
  · intro h
    by_cases hlt : s.iteration + 1 < s.max_iterations <;>
      by_cases hlt' : s.iteration < s.max_iterations <;>
      simp [should_continue_healing, determineNextAgent, gstateToSwarm,
        gTagToSwarm, h, hlt, hlt']
  · intro h
    by_cases hi : s.detected_issues = [] <;>
      simp [should_continue_healing, determineNextAgent, gstateToSwarm,
        gTagToSwarm, hasUnresolvedIssues, h, hi, List.length_pos]

/-- Claim C9, witness: the agreement after the Listener, the `FixFailed`
divergence characterization, and the `FixSucceeded` always-terminate
behavior with issues remaining, at concrete graph states. -/
theorem C9_witness :
    (should_fix { gsAfterFailure with current_state := .issuesDetected }
        = "corrector"
      ↔ (determineNextAgent (gstateToSwarm
          { gsAfterFailure with current_state := .issuesDetected })).fst
          = some AgentRole.corrector)
    ∧ ((should_continue_healing gsAfterFailure).fst = "corrector"
        ↔ gsAfterFailure.iteration + 1 < gsAfterFailure.max_iterations)
    ∧ ((should_continue_healing
          { gsAfterFailure with current_state := .fixSuccess }).fst = "end"
        ∧ (should_continue_healing
            { gsAfterFailure with current_state := .fixSuccess }).snd
          = { gsAfterFailure with current_state := .fixSuccess }
        ∧ ((determineNextAgent (gstateToSwarm
              { gsAfterFailure with current_state := .fixSuccess })).fst
              = some AgentRole.corrector
            ↔ { gsAfterFailure with
                  current_state := GSwarmState.fixSuccess }.detected_issues
              ≠ [])) :=
  ⟨(C9_graph_divergence
      { gsAfterFailure with current_state := .issuesDetected }).1
      (Or.inl rfl),
   ((C9_graph_divergence gsAfterFailure).2.1 rfl).1,
   (C9_graph_divergence
      { gsAfterFailure with current_state := .fixSuccess }).2.2 rfl⟩

/-- Claim C6, counterexample: issues detected, budget `maxIterations = 1`,
and a correction stage whose validation fails (the Validator's
`_analyze_test_results` with a failing pytest result) — one failing
correction attempt, equal to the whole budget. `run_pipeline` returns
`currentState = Completed`, not `FixFailed` or `Aborted` (the finalizer
forces `Completed`); `healingAttempts` is 1. -/
theorem C6_counterexample :
    (runPipeline agFailingFix 2 ctxScenarioFail).map
        (fun p => (p.fst.current_state, p.fst.healing_attempts, p.snd))
      = some (SwarmState.completed, 1, 1)
    ∧ SwarmState.completed ≠ SwarmState.fixFailed
    ∧ SwarmState.completed ≠ SwarmState.aborted
    ∧ ctxScenarioFail.max_iterations = 1 := by
  decide

/-- Claim C6 (amended): the manual loop never dispatches the Validator
role, and `run_pipeline` never returns a context in state `FixFailed` —
the finalizer forces `Completed` whenever the loop ends in a non-terminal
state. In the scenario of `maxIterations` consecutive failing correction
attempts the returned context has `currentState = Completed` with
`healingAttempts = maxIterations = 1`. -/
theorem C6_exhausted_failures_completed :
    (∀ c : SwarmContext, (determineNextAgent c).fst ≠ some AgentRole.validator)
    ∧ (∀ (ag : Agents) (fuel : Nat) (c r : SwarmContext) (k : Nat),
        runPipeline ag fuel c = some (r, k) →
        r.current_state ≠ SwarmState.fixFailed)
    ∧ (runPipeline agFailingFix 2 ctxScenarioFail).map
        (fun p => (p.fst.current_state, p.fst.healing_attempts))
      = some (SwarmState.completed, ctxScenarioFail.max_iterations) := by
  refine ⟨?_, ?_, by decide⟩
  · intro c
    rcases hcs : c.current_state <;>
      simp [determineNextAgent, hcs] <;> split <;> simp
  · intro ag fuel c r k h
    unfold runPipeline at h
    rcases hrl : runLoop ag fuel { c with started_at := some () } with _ | p
    · rw [hrl] at h; simp at h
    · rw [hrl] at h
      simp only [Option.map_some', Option.some.injEq, Prod.mk.injEq] at h
      obtain ⟨h1, _⟩ := h
      rcases finalize_state p.fst with hs | hs <;> rw [← h1, hs] <;> simp

/-- Claim C6, witness: the never-`FixFailed` conjunct discharged on a
concrete completed run. -/
theorem C6_witness :
    runPipeline noAgents 1 (freshContext "w" 1) = some (unregisteredFinal, 1)
    ∧ unregisteredFinal.current_state ≠ SwarmState.fixFailed :=
  ⟨by decide,
   C6_exhausted_failures_completed.2.1 noAgents 1 (freshContext "w" 1)
     unregisteredFinal 1 (by decide)⟩

/-- Claim C1, counterexample: a context with `maxIterations = 1` (which is
nonnegative, as the claim requires) and a negative starting `iteration`
makes `run_pipeline` execute 3 loop passes, more than `maxIterations`. -/
theorem C1_counterexample :
    (runPipeline noAgents 5 cexOverrun).map (fun p => p.snd) = some 3
    ∧ cexOverrun.max_iterations = 1
    ∧ (0 : Int) ≤ cexOverrun.max_iterations
    ∧ ¬ ((3 : Int) ≤ cexOverrun.max_iterations) := by
  decide

/-- Claim C1 (amended): provided the registered stages preserve `iteration`
and `maxIterations` and the initial context additionally has
`0 ≤ iteration` (with `0 ≤ maxIterations` as the claim states),
`run_pipeline` terminates — fuel `(maxIterations - iteration).toNat`
always completes the loop — after at most `maxIterations` loop passes; the
orchestrator increments `iteration` exactly once per pass, so it never
decreases and the final `iteration` is the initial one plus the pass
count. -/
theorem C1_bounded_termination (ag : Agents) (c : SwarmContext)
    (hp : PreservesCounters ag) (h0 : 0 ≤ c.iteration)
    (hm : 0 ≤ c.max_iterations) :
    (runPipeline ag (c.max_iterations - c.iteration).toNat c).isSome = true
    ∧ (∀ (r : SwarmContext) (k : Nat),
        runPipeline ag (c.max_iterations - c.iteration).toNat c = some (r, k) →
        (k : Int) ≤ c.max_iterations
        ∧ r.iteration = c.iteration + (k : Int)
        ∧ c.iteration ≤ r.iteration)
    ∧ (∀ c' : SwarmContext,
        (passCtx (loopPass ag c')).iteration = c'.iteration + 1) := by
  obtain ⟨⟨cf, kf⟩, hrun, hit, hmx, hk⟩ :=
    runLoop_sound ag hp (c.max_iterations - c.iteration).toNat
      { c with started_at := some () } rfl
  refine ⟨?_, ?_, fun c' => (loopPass_counters ag hp c').1⟩
  · unfold runPipeline
    rw [hrun]
    rfl
  · intro r k h
    unfold runPipeline at h
    rw [hrun] at h
    simp only [Option.map_some', Option.some.injEq, Prod.mk.injEq] at h
    obtain ⟨h1, h2⟩ := h
    simp only at hit hmx hk
    have hri : r.iteration = c.iteration + (k : Int) := by
      rw [← h1, finalize_iteration, hit, h2]
    refine ⟨?_, hri, by omega⟩
    subst h2
    omega

/-- Claim C1, witness: the bound, termination and per-pass increment at the
empty registry on a fresh two-iteration context. -/
theorem C1_witness :
    (runPipeline noAgents 2 (freshContext "t" 2)).isSome = true
    ∧ ((1 : Int) ≤ 2
        ∧ demoFinal2.iteration = 0 + (1 : Int)
        ∧ (0 : Int) ≤ demoFinal2.iteration)
    ∧ (passCtx (loopPass noAgents (freshContext "t" 2))).iteration
        = (freshContext "t" 2).iteration + 1 := by
  have hp : PreservesCounters noAgents := by
    intro role f c c' hf _
    exact Option.noConfusion hf
  have H := C1_bounded_termination noAgents (freshContext "t" 2) hp
    (by decide) (by decide)
  exact ⟨H.1, H.2.1 demoFinal2 1 (by decide),
    H.2.2 (freshContext "t" 2)⟩

/-- Claim C5: if the stage chosen on a pass is registered and its `run`
raises, the loop breaks after that pass (pass count 1 with any remaining
fuel, so no further stage is invoked) with exactly one new entry — the
exception text — appended to `errorLog` and `currentState = Aborted`; the
finalizer reports that aborted state and log unchanged; and `run_pipeline`
never propagates the failure: with counter-preserving stages (raising or
not) it always returns a final context. -/
theorem C5_exception_containment :
    (∀ (ag : Agents) (c : SwarmContext) (role : AgentRole)
       (f : SwarmContext → Except String SwarmContext) (e : String) (n : Nat),
       shouldContinue c = true →
       (determineNextAgent { c with iteration := c.iteration + 1 }).fst
         = some role →
       ag role = some f →
       f (handoverTo role
           (determineNextAgent { c with iteration := c.iteration + 1 }).snd)
         = Except.error e →
       runLoop ag (n + 1) c
         = some ({ handoverTo role
                     (determineNextAgent
                       { c with iteration := c.iteration + 1 }).snd with
                     error_log :=
                       (handoverTo role
                         (determineNextAgent
                           { c with iteration := c.iteration + 1 }).snd).error_log
                         ++ [e],
                     current_state := SwarmState.aborted }, 1)
       ∧ (passCtx (loopPass ag c)).error_log = c.error_log ++ [e]
       ∧ (passCtx (loopPass ag c)).current_state = SwarmState.aborted)
    ∧ (∀ c : SwarmContext, c.current_state = SwarmState.aborted →
        (finalize c).current_state = SwarmState.aborted
        ∧ (finalize c).error_log = c.error_log)
    ∧ (∀ (ag : Agents) (c : SwarmContext), PreservesCounters ag →
        (runPipeline ag ((c.max_iterations - c.iteration).toNat) c).isSome
          = true) := by
  refine ⟨?_, ?_, ?_⟩
  · intro ag c role f e n hsc hfst hag hrun
    have hpass : loopPass ag c
        = .brk { handoverTo role
                   (determineNextAgent
                     { c with iteration := c.iteration + 1 }).snd with
                 error_log :=
                   (handoverTo role
                     (determineNextAgent
                       { c with iteration := c.iteration + 1 }).snd).error_log
                     ++ [e],
                 current_state := SwarmState.aborted } := by
      simp only [loopPass, hfst, hag, hrun]
    have hlog : (handoverTo role
        (determineNextAgent { c with iteration := c.iteration + 1 }).snd).error_log
        = c.error_log := by
      rw [handoverTo_error_log, detNA_error_log]
    refine ⟨?_, ?_, ?_⟩
    · simp [runLoop, hsc, hpass]
    · rw [hpass]; simp [passCtx, hlog]
    · rw [hpass]; simp [passCtx]
  · intro c h
    constructor <;> simp [finalize, h]
  · intro ag c hp
    obtain ⟨p, hrun, _⟩ :=
      runLoop_sound ag hp (c.max_iterations - c.iteration).toNat
        { c with started_at := some () } rfl
    unfold runPipeline
    rw [hrun]
    rfl

/-- Claim C5, witness: a Listener that raises "boom" on the first pass of a
fresh context aborts the run with exactly that one log entry; the
totality conjunct discharged on the empty registry. -/
theorem C5_witness :
    runLoop agRaising 1 (freshContext "x" 3) = some (abortedDemo, 1)
    ∧ (passCtx (loopPass agRaising (freshContext "x" 3))).error_log
        = (freshContext "x" 3).error_log ++ ["boom"]
    ∧ (passCtx (loopPass agRaising (freshContext "x" 3))).current_state
        = SwarmState.aborted
    ∧ ((finalize abortedDemo).current_state = SwarmState.aborted
        ∧ (finalize abortedDemo).error_log = abortedDemo.error_log)
    ∧ (runPipeline noAgents
        (((freshContext "t" 2).max_iterations
            - (freshContext "t" 2).iteration).toNat)
        (freshContext "t" 2)).isSome = true := by
  have hp : PreservesCounters noAgents := by
    intro role f c c' hf _
    exact Option.noConfusion hf
  have H := C5_exception_containment.1 agRaising (freshContext "x" 3)
    AgentRole.listener (fun _ => Except.error "boom") "boom" 0
    (by decide) (by decide) rfl rfl
  exact ⟨H.1, H.2.1, H.2.2,
    C5_exception_containment.2.1 abortedDemo (by decide),
    C5_exception_containment.2.2 noAgents (freshContext "t" 2) hp⟩
